import Mathlib

/-!
Verification development for the chorus-cutter batch audio tool
(`chorus_cutter.py`).  The core logic — time parsing (`TimeParser.parse_time`),
file matching (`ProcessWorker._build_audio_map` / `_match_audio_file`), cut
window derivation and per-row processing (`ProcessWorker._process_single_row`),
the cut primitive (`AudioProcessor.cut_audio`), filename sanitisation
(`FileNameSanitizer`) and the batch loop (`ProcessWorker._process`) — is
embedded as executable Lean definitions.

Modelling conventions:
* Python `float` values are modelled exactly as fractions (`PyF`), i.e. the
  arithmetic the program performs on parsed timestamps is tracked as exact
  rational arithmetic; `float` parsing (`PyF` from text) follows the decimal
  grammar accepted by Python's `float()` (sign, digits, optional fraction,
  optional exponent); the non-finite literals `inf`/`nan` and digit-group
  underscores are outside the model.
* Strings are processed on their character lists (`String.data`); case
  folding is ASCII, whitespace stripping uses `Char.isWhitespace`.
* The id and name cells are modelled three-state (`Cell`): the column may be
  absent from the spreadsheet, present with a `NaN` value, or present with a
  value carried as its `str()` text — `Series.get` falls back to its default
  only when the column is absent, and `str(nan)` is the text `"nan"`.  The
  three time cells are modelled as `Option String` (`none` for absent or
  `NaN`), because `parse_time`'s `pd.isna` gate treats the two alike.
* Filesystem paths use `/` as separator; `os.path.join dir name` is
  `dir ++ "/" ++ name`; `os.path.exists` is membership in an explicit list of
  existing names carried by the per-row environment.
* I/O effects (audio decode success and decoded length, export success, the
  cooperative stop flag observed at each of the three in-row checkpoints, and
  an unexpected exception raised inside the per-row `try` block) are supplied
  by a per-row environment record, making `_process_single_row` a pure
  function of its inputs.
-/

namespace ChorusCutter

/-- Exact fraction model of a Python `float` value: numerator and (positive,
by construction) denominator, kept unnormalised so that all operations are
kernel-computable. -/
structure PyF where
  num : ℤ
  den : ℕ
deriving DecidableEq

/-- Comparison `a <= b` between two modelled float values (exact,
cross-multiplied). -/
def PyF.le (a b : PyF) : Prop := a.num * (b.den : ℤ) ≤ b.num * (a.den : ℤ)

instance (a b : PyF) : Decidable (a.le b) := by
  unfold PyF.le
  infer_instance

/-- Addition of two modelled float values. -/
def PyF.add (a b : PyF) : PyF := ⟨a.num * b.den + b.num * a.den, a.den * b.den⟩

/-- Subtraction of two modelled float values. -/
def PyF.sub (a b : PyF) : PyF := ⟨a.num * b.den - b.num * a.den, a.den * b.den⟩

/-- Multiplication by a natural constant (used for seconds → milliseconds). -/
def PyF.mulNat (a : PyF) (k : ℕ) : PyF := ⟨a.num * k, a.den⟩

/-- The literal `0.0`. -/
def PyF.zero : PyF := ⟨0, 1⟩

/-- Python `max(0, x)`. -/
def PyF.max0 (a : PyF) : PyF := if a.le PyF.zero then PyF.zero else a

/-- Python `int(x)` on a float: truncation toward zero. -/
def PyF.trunc (a : PyF) : ℤ := a.num.tdiv a.den

/-- The rational value a `PyF` denotes (for stating claim-level equalities). -/
def PyF.toRat (a : PyF) : ℚ := (a.num : ℚ) / (a.den : ℚ)

/- ### character-list string utilities -/

/-- Value of a digit string, most significant first. -/
def digitsToNat (l : List Char) : ℕ := l.foldl (fun a c => a * 10 + (c.toNat - 48)) 0

/-- Python `str.strip()` on a character list. -/
def stripL (l : List Char) : List Char :=
  ((l.dropWhile Char.isWhitespace).reverse.dropWhile Char.isWhitespace).reverse

/-- Python `str.strip()`. -/
def pyStrip (s : String) : String := ⟨stripL s.data⟩

/-- ASCII lowercasing of a character list (Python `str.lower()`). -/
def lowerL (l : List Char) : List Char := l.map Char.toLower

/-- Python `str.lower()`. -/
def pyLower (s : String) : String := ⟨lowerL s.data⟩

/-- Python `str.startswith`: does `l` start with `p`? -/
def startsWithL (l p : List Char) : Bool := l.take p.length == p

/-- Python `p in l` substring containment on character lists. -/
def containsSeq (p : List Char) : List Char → Bool
  | [] => p.isEmpty
  | c :: t => startsWithL (c :: t) p || containsSeq p t

/-- Python `str.isdigit()` (ASCII digits; true only on non-empty input). -/
def pyIsdigit (s : String) : Bool := !s.data.isEmpty && s.data.all Char.isDigit

/-- Python `str.replace(c, "")`: drop every occurrence of one character. -/
def removeChar (c : Char) (s : String) : String := ⟨s.data.filter (fun x => !(x == c))⟩

/-- Split a character list at every occurrence of `sep` (like
`str.split(sep)`); used to model anchored regexes whose groups cannot span
the separator. -/
def splitOnChar (sep : Char) : List Char → List (List Char)
  | [] => [[]]
  | c :: t =>
    match splitOnChar sep t with
    | [] => [[]]
    | h :: r => if c = sep then [] :: h :: r else (c :: h) :: r

/- ### TimeParser -/

/-- Exponent suffix of the `float()` grammar: on empty input the mantissa is
the value; otherwise `e`/`E`, an optional sign and digits scale it. -/
def pyExpPart (mantNum : ℤ) (mantDen : ℕ) (cs : List Char) : Option PyF :=
  match cs with
  | [] => some ⟨mantNum, mantDen⟩
  | e :: t =>
    if e = 'e' || e = 'E' then
      let esgned : Bool × List Char :=
        match t with
        | '+' :: u => (true, u)
        | '-' :: u => (false, u)
        | _ => (true, t)
      let edSplit := esgned.2.span Char.isDigit
      if edSplit.1.isEmpty || !edSplit.2.isEmpty then none
      else if esgned.1 then some ⟨mantNum * 10 ^ (digitsToNat edSplit.1), mantDen⟩
      else some ⟨mantNum, mantDen * 10 ^ (digitsToNat edSplit.1)⟩
    else none

/-- Signless part of the `float()` grammar: digits with optional fraction
(at least one digit on one side of the dot), then the exponent part. -/
def pyFloatMag (sgn : ℤ) (cs : List Char) : Option PyF :=
  let ipSplit := cs.span Char.isDigit
  let fpSplit : List Char × List Char :=
    match ipSplit.2 with
    | '.' :: t => t.span Char.isDigit
    | _ => ([], ipSplit.2)
  if ipSplit.1.isEmpty && fpSplit.1.isEmpty then none
  else
    pyExpPart (sgn * ((digitsToNat ipSplit.1) * 10 ^ fpSplit.1.length + digitsToNat fpSplit.1))
      (10 ^ fpSplit.1.length) fpSplit.2

/-- Python `float(s)` on stripped text: optional sign, digits with optional
fraction, optional exponent.  Returns the exact value, or `none` when
`float()` would raise `ValueError`. -/
def pyFloatCore (cs : List Char) : Option PyF :=
  match cs with
  | '+' :: t => pyFloatMag 1 t
  | '-' :: t => pyFloatMag (-1) t
  | _ => pyFloatMag 1 cs

/-- Python `float(s)`. -/
def pyFloat (s : String) : Option PyF := pyFloatCore s.data

/-- The regex fragment `\d+(?:\.\d+)?` (seconds field of the time pattern). -/
def decimalNum (cs : List Char) : Bool :=
  match cs.span Char.isDigit with
  | (ds, []) => !ds.isEmpty
  | (ds, '.' :: t) => !ds.isEmpty && !t.isEmpty && t.all Char.isDigit
  | _ => false

/-- Value of a `\d+(?:\.\d+)?` seconds field. -/
def decimalVal (cs : List Char) : PyF :=
  match cs.span Char.isDigit with
  | (ds, '.' :: t) => ⟨(digitsToNat ds) * 10 ^ t.length + digitsToNat t, 10 ^ t.length⟩
  | (ds, _) => ⟨digitsToNat ds, 1⟩

/-- The anchored regex
`^(\d+):(\d+):(\d+(?:\.\d+)?)$|^(\d+):(\d+(?:\.\d+)?)$` of
`TimeParser.parse_time`, with the H:MM:SS resp. M:SS value computation. -/
def colonParse (cs : List Char) : Option PyF :=
  match splitOnChar ':' cs with
  | [a, b, c] =>
    if !a.isEmpty && a.all Char.isDigit && !b.isEmpty && b.all Char.isDigit
        && decimalNum c then
      some (PyF.add ⟨(digitsToNat a) * 3600 + (digitsToNat b) * 60, 1⟩ (decimalVal c))
    else none
  | [a, b] =>
    if !a.isEmpty && a.all Char.isDigit && decimalNum b then
      some (PyF.add ⟨(digitsToNat a) * 60, 1⟩ (decimalVal b))
    else none
  | _ => none

/-- `TimeParser.parse_time`: `none` models both a missing/NaN cell and an
unparsable string. -/
def parse_time (raw : Option String) : Option PyF :=
  match raw with
  | none => none
  | some s0 =>
    let s := pyStrip s0
    if s.data.isEmpty then none
    else
      match pyFloat s with
      | some q => some q
      | none => colonParse s.data

/- ### AudioProcessor -/

/-- `AudioProcessor.cut_audio` on an asset of `audioLen` milliseconds: the
result is the half-open millisecond slice handed to the audio library, or
`none` where the code returns Python `None`.  The slice may be empty (the
code's truthiness test on the segment handles that downstream). -/
def cut_audio (audioLen : ℕ) (startTime endTime : PyF) : Option (ℤ × ℤ) :=
  let startMs := (startTime.mulNat 1000).trunc
  let endMs := (endTime.mulNat 1000).trunc
  if endMs ≤ startMs then none
  else some (startMs, min endMs (audioLen : ℤ))

/- ### FileNameSanitizer -/

/-- The character class `[<>:"/\\|?*]` of `FileNameSanitizer.sanitize`. -/
def dangerousChar (c : Char) : Bool :=
  c = '<' || c = '>' || c = ':' || c = '"' || c = '/' || c = '\\' || c = '|'
    || c = '?' || c = '*'

/-- `FileNameSanitizer.sanitize`: replace dangerous characters by `_`, strip
surrounding whitespace, truncate to `maxLength` characters. -/
def sanitize (filename : String) (maxLength : ℕ) : String :=
  let replaced := filename.data.map (fun c => if dangerousChar c then '_' else c)
  let trimmed := stripL replaced
  if maxLength < trimmed.length then ⟨trimmed.take maxLength⟩ else ⟨trimmed⟩

/-- Candidate output path number `n` of `FileNameSanitizer.get_unique_filename`
(`n = 0` is the plain name, `n ≥ 1` appends `(n)`). -/
def uniqueCandidate (dir base ext : String) (n : ℕ) : String :=
  if n = 0 then dir ++ "/" ++ base ++ "." ++ ext
  else dir ++ "/" ++ base ++ "(" ++ toString n ++ ")." ++ ext

/-- Index search of `get_unique_filename`: smallest candidate index whose path
is not among the existing files (fuelled; `existing.length + 1` fuel always
suffices). -/
def firstFreeIdx (existing : List String) (dir base ext : String) : ℕ → ℕ → ℕ
  | 0, n => n
  | fuel + 1, n =>
    if (uniqueCandidate dir base ext n) ∈ existing then
      firstFreeIdx existing dir base ext fuel (n + 1)
    else n

/-- `FileNameSanitizer.get_unique_filename` against an explicit list of
existing file paths. -/
def get_unique_filename (existing : List String) (dir base ext : String) : String :=
  uniqueCandidate dir base ext (firstFreeIdx existing dir base ext (existing.length + 1) 0)

/- ### file matching -/

/-- State of a spreadsheet cell as pandas hands it to the worker: the column
may be missing from the sheet entirely (`Series.get` then returns its
default), present but blank (`NaN`), or present with a value (carried as its
`str()` text). -/
inductive Cell
  | absent
  | nan
  | val (s : String)
deriving DecidableEq

/-- The usable value of a cell, i.e. the `pd.notna` gate: only a present
non-NaN cell passes. -/
def Cell.notna? : Cell → Option String
  | .val s => some s
  | _ => none

/-- Python text of `row.get(col, '')` as interpolated into messages:
`''` for an absent column, `str(nan) = "nan"` for a blank cell. -/
def Cell.text : Cell → String
  | .absent => ""
  | .nan => "nan"
  | .val s => s

/-- The cleaned cell text of lines 388–399 of the source (`pd.notna` guard
with `''` fallback): both an absent column and a NaN cell become `''`. -/
def Cell.cleanText : Cell → String
  | .val s => s
  | _ => ""

/-- What a spreadsheet row hands the core: id and name cells (three-state,
see `Cell`) and the three raw time cells (`none` = absent or NaN, `some s` = the
cell's `str()` text). -/
structure Row where
  accId : Cell
  songName : Cell
  rawStart : Option String
  rawEnd : Option String
  rawSplit : Option String
deriving DecidableEq

/-- The insertion-ordered name → path index (Python `dict`). -/
abbrev AudioMap := List (String × String)

/-- Python `audio_map[k]` lookup (first — and only — entry with that key). -/
def dictGet? (m : AudioMap) (k : String) : Option String :=
  (m.find? (fun p => p.1 == k)).map (fun p => p.2)

/-- Python `audio_map[k] = v`: update in place if the key exists (keeping its
iteration position), else append. -/
def dictSet (m : AudioMap) (k v : String) : AudioMap :=
  if m.any (fun p => p.1 == k) then m.map (fun p => if p.1 == k then (p.1, v) else p)
  else m ++ [(k, v)]

/-- `os.path.basename` (POSIX separators). -/
def basenameOf (path : String) : String :=
  match (splitOnChar '/' path.data).getLast? with
  | some b => ⟨b⟩
  | none => path

/-- Stem part of `os.path.splitext`: cut at the last dot unless only dots
precede it. -/
def splitextStem (base : String) : String :=
  let cs := base.data
  match cs.reverse.findIdx? (fun c => c = '.') with
  | none => base
  | some j =>
    let i := cs.length - 1 - j
    if (cs.take i).all (fun c => c = '.') then base else ⟨cs.take i⟩

/-- Filename stem used as the matching key for an audio file. -/
def stemOf (path : String) : String := splitextStem (basenameOf path)

/-- `ProcessWorker._build_audio_map`: register every stem under its exact form
and its stripped-lowercase form (later registrations win). -/
def build_audio_map (files : List String) : AudioMap :=
  files.foldl
    (fun m p =>
      let n := stemOf p
      dictSet (dictSet m n p) (pyLower (pyStrip n)) p)
    []

/-- The three values of the `match_strategy` configuration string. -/
inductive Strategy
  | idFirst
  | nameOnly
  | fuzzy
deriving DecidableEq

/-- The trailing-decimal normalisation applied to the id in the exact/prefix
tiers: if the id contains a dot and is digits after dropping dots and dashes,
replace it by `str(int(float(id)))`; a failing `float`/`int` leaves it
unchanged. -/
def normalizeId (s : String) : String :=
  if s.data.contains '.' && pyIsdigit (removeChar '-' (removeChar '.' s)) then
    match pyFloat s with
    | some q => Int.repr q.trunc
    | none => s
  else s

/-- The looser normalisation of the fuzzy substring tier (any dotted id is
passed through `str(int(float(id)))` when that succeeds). -/
def normalizeIdFuzzy (s : String) : String :=
  if s.data.contains '.' then
    match pyFloat s with
    | some q => Int.repr q.trunc
    | none => s
  else s

/-- One iteration of the delimited-prefix loop: the lowercased key starts with
`target` followed by `-`, `_` or a space, or equals `target` (which is already
lowercased by the caller). -/
def delimKeyMatch (target : List Char) (key : String) : Bool :=
  let k := lowerL key.data
  startsWithL k (target ++ ['-']) || startsWithL k (target ++ ['_'])
    || startsWithL k (target ++ [' ']) || k == target

/-- The delimited-prefix scan over the index in insertion order. -/
def findDelimMatch (m : AudioMap) (target : List Char) : Option String :=
  (m.find? (fun p => delimKeyMatch target p.1)).map (fun p => p.2)

/-- One iteration of the fuzzy substring loop: either string contains the
other (both lowercased; `target` is already lowercased by the caller). -/
def substrKeyMatch (target : List Char) (key : String) : Bool :=
  let k := lowerL key.data
  containsSeq target k || containsSeq k target

/-- The fuzzy substring scan over the index in insertion order. -/
def findSubstrMatch (m : AudioMap) (target : List Char) : Option String :=
  (m.find? (fun p => substrKeyMatch target p.1)).map (fun p => p.2)

/-- `ProcessWorker._match_audio_file`, transcribed with the source's
sequential early returns. -/
def match_audio_file (row : Row) (m : AudioMap) (strategy : Strategy) : Option String :=
  let idStep : Option String :=
    if strategy = .idFirst || strategy = .fuzzy then
      match row.accId.notna? with
      | some a =>
        let idStr := normalizeId (pyStrip a)
        (match dictGet? m idStr with
         | some p => some p
         | none =>
           match dictGet? m (pyLower idStr) with
           | some p => some p
           | none => findDelimMatch m (lowerL idStr.data))
      | none => none
    else none
  match idStep with
  | some p => some p
  | none =>
    let nameStep : Option String :=
      if strategy = .nameOnly || strategy = .idFirst || strategy = .fuzzy then
        match row.songName.notna? with
        | some nm =>
          let nameStr := pyStrip nm
          (match dictGet? m nameStr with
           | some p => some p
           | none =>
             match dictGet? m (pyLower nameStr) with
             | some p => some p
             | none => findDelimMatch m (lowerL nameStr.data))
        | none => none
      else none
    match nameStep with
    | some p => some p
    | none =>
      if strategy = .fuzzy then
        let idSub : Option String :=
          match row.accId.notna? with
          | some a => findSubstrMatch m (lowerL (normalizeIdFuzzy (pyStrip a)).data)
          | none => none
        match idSub with
        | some p => some p
        | none =>
          match row.songName.notna? with
          | some nm => findSubstrMatch m (lowerL (pyStrip nm).data)
          | none => none
      else none

/-- Exact-lookup tier of the specification's cascade. -/
def tierExact (m : AudioMap) (x : String) : Option String := dictGet? m x

/-- Lowercase-exact tier of the specification's cascade. -/
def tierLower (m : AudioMap) (x : String) : Option String := dictGet? m (pyLower x)

/-- Delimited-prefix-or-exact-equal tier of the specification's cascade. -/
def tierDelimited (m : AudioMap) (x : String) : Option String :=
  findDelimMatch m (lowerL x.data)

/-- The id-first resolution cascade exactly as §4.2 of the specification words
it: id exact, id lowercase-exact, id as delimited prefix or (case-insensitive)
exact-equal; only if every id step fails, the same steps against the row's
name; the trailing-decimal id normalisation happens before any comparison.
Stated independently of `match_audio_file` so the two can be compared. -/
def spec_id_first_resolve (row : Row) (m : AudioMap) : Option String :=
  let fieldSteps : String → Option String := fun x =>
    (tierExact m x).orElse fun _ => (tierLower m x).orElse fun _ => tierDelimited m x
  (match row.accId.notna? with
   | some a => fieldSteps (normalizeId (pyStrip a))
   | none => none).orElse fun _ =>
    match row.songName.notna? with
    | some nm => fieldSteps (pyStrip nm)
    | none => none

/- ### per-row processing -/

/-- Terminal status of one row (the source's `'成功'`/`'失败'`/`'已取消'`). -/
inductive Status
  | success
  | failed
  | cancelled
deriving DecidableEq

/-- The per-row result record emitted through `row_updated`. -/
structure RowResult where
  accompaniment_id : String
  song_name : String
  input_path : String
  output_full : String
  output_part1 : String
  output_part2 : String
  status : Status
  error : String
deriving DecidableEq

/-- Run configuration handed to the worker. -/
structure Config where
  outputDir : String
  exportFormat : String
  modeFull : Bool
  modeSplit : Bool
  overwrite : Bool
  matchStrategy : Strategy
  startAdjust : PyF
  endAdjust : PyF

/-- Per-row external world: an unexpected exception raised inside the row's
`try` block (with its message), the decode result (`none` = load failure,
`some len` = length in ms), the stop flag as observed at the three in-row
checkpoints, export success per output path, and the existing files consulted
by `get_unique_filename`. -/
structure Env where
  fault : Option String
  audioLen : Option ℕ
  stopFull : Bool
  stopPart1 : Bool
  stopPart2 : Bool
  exportOk : String → Bool
  existing : List String

/-- Error message for a failed match (the row's raw id and name are
interpolated). -/
def matchFailMsg (accId songName : String) : String :=
  "未找到匹配的音频文件（伴奏ID:" ++ accId ++ ", 歌名:" ++ songName ++ "）"

/-- Error message for an unparsable start/end time. -/
def parseFailMsg : String := "时间解析失败"

/-- Error message when effective start ≥ effective end. -/
def timeOrderMsg : String := "副歌开始时间必须小于结束时间（应用微调后）"

/-- Error message for a failed audio load. -/
def loadFailMsg : String := "音频加载失败"

/-- Error message when split mode lacks a split time. -/
def splitNeedMsg : String := "分段模式需要段落剪切时间"

/-- Error message when the split time is outside the window. -/
def splitRangeMsg : String := "段落剪切时间必须在副歌开始和结束时间之间"

/-- Error message when no requested output was produced. -/
def noOutputMsg : String := "未生成任何输出文件"

/-- Output-name suffix of the full chorus segment. -/
def fullSuffix : String := "-整段副歌"

/-- Output-name suffix of the first split segment. -/
def part1Suffix : String := "-前段副歌"

/-- Output-name suffix of the second split segment. -/
def part2Suffix : String := "-后段副歌"

/-- The result record as initialised at the top of `_process_single_row`. -/
def mkInitResult (row : Row) : RowResult :=
  { accompaniment_id := row.accId.cleanText
    song_name := row.songName.cleanText
    input_path := ""
    output_full := ""
    output_part1 := ""
    output_part2 := ""
    status := .failed
    error := "" }

/-- Base output name, transcribing
`str(row.get('伴奏ID', row.get('歌名', f'track_{idx}')))`: `Series.get`
falls back to its default only when the column is *absent*, so a
present-but-NaN id cell yields the text `"nan"` — it does not fall through
to the song name. -/
def baseNameOf (row : Row) (idx : ℕ) : String :=
  match row.accId with
  | .val s => s
  | .nan => "nan"
  | .absent =>
    match row.songName with
    | .val nm => nm
    | .nan => "nan"
    | .absent => "track_" ++ toString idx

/-- Output path for one segment name: deterministic overwrite or
uniquification. -/
def outPathFor (cfg : Config) (env : Env) (fname : String) : String :=
  if cfg.overwrite then cfg.outputDir ++ "/" ++ fname ++ "." ++ cfg.exportFormat
  else get_unique_filename env.existing cfg.outputDir fname cfg.exportFormat

/-- Cut-and-export of one segment: on a truthy (non-empty) cut, compute the
output path and record it via `set` when the export succeeds; any failure
leaves the result unchanged. -/
def exportSegment (cfg : Config) (env : Env) (len : ℕ) (s e : PyF) (fname : String)
    (r : RowResult) (set : RowResult → String → RowResult) : RowResult :=
  match cut_audio len s e with
  | none => r
  | some seg =>
    if 0 < seg.2 - seg.1 then
      if env.exportOk (outPathFor cfg env fname) then set r (outPathFor cfg env fname)
      else r
    else r

/-- Final status determination at the bottom of `_process_single_row`. -/
def finalize (r : RowResult) : RowResult :=
  if r.output_full ≠ "" ∨ r.output_part1 ≠ "" ∨ r.output_part2 ≠ "" then
    { r with status := .success }
  else { r with error := noOutputMsg }

/-- Recording of the full-segment output path in the result. -/
def setFull : RowResult → String → RowResult := fun r p => { r with output_full := p }

/-- Recording of the part1 output path in the result. -/
def setPart1 : RowResult → String → RowResult := fun r p => { r with output_part1 := p }

/-- Recording of the part2 output path in the result. -/
def setPart2 : RowResult → String → RowResult := fun r p => { r with output_part2 := p }

/-- The full-chorus block of `_process_single_row` (after the stop
checkpoint): when the full mode is on, cut and export the whole window. -/
def fullStage (cfg : Config) (env : Env) (len : ℕ) (base : String) (ts te : PyF)
    (r1 : RowResult) : RowResult :=
  if cfg.modeFull then
    exportSegment cfg env len ts te (base ++ fullSuffix) r1 setFull
  else r1

/-- The split block and final status determination of `_process_single_row`:
validate the split time, cut/export the two parts with their stop
checkpoints, then finalise. -/
def splitStage (cfg : Config) (env : Env) (len : ℕ) (base : String) (ts te : PyF)
    (sp : Option PyF) (r2 : RowResult) : RowResult :=
  if cfg.modeSplit then
    match sp with
    | none => finalize { r2 with error := splitNeedMsg }
    | some tsp =>
      if tsp.le ts ∨ te.le tsp then
        finalize { r2 with error := splitRangeMsg }
      else if env.stopPart1 then { r2 with status := .cancelled }
      else
        let r3 := exportSegment cfg env len ts tsp (base ++ part1Suffix) r2 setPart1
        if env.stopPart2 then { r3 with status := .cancelled }
        else
          finalize (exportSegment cfg env len tsp te (base ++ part2Suffix) r3 setPart2)
  else finalize r2

/-- `ProcessWorker._process_single_row`. -/
def process_single_row (cfg : Config) (m : AudioMap) (env : Env) (row : Row)
    (idx : ℕ) : RowResult :=
  let r0 := mkInitResult row
  match env.fault with
  | some msg => { r0 with error := msg }
  | none =>
    match match_audio_file row m cfg.matchStrategy with
    | none => { r0 with error := matchFailMsg row.accId.text row.songName.text }
    | some audioPath =>
      let r1 := { r0 with input_path := audioPath }
      match parse_time row.rawStart, parse_time row.rawEnd with
      | some ts0, some te0 =>
        let sp := parse_time row.rawSplit
        let ts := (ts0.sub cfg.startAdjust).max0
        let te := te0.add cfg.endAdjust
        if te.le ts then { r1 with error := timeOrderMsg }
        else
          match env.audioLen with
          | none => { r1 with error := loadFailMsg }
          | some len =>
            let base := sanitize (baseNameOf row idx) 200
            if cfg.modeFull && env.stopFull then { r1 with status := .cancelled }
            else splitStage cfg env len base ts te sp (fullStage cfg env len base ts te r1)
      | _, _ => { r1 with error := parseFailMsg }

/- ### batch loop -/

/-- Accumulated outcome of the row loop of `ProcessWorker._process`: the
emitted row results in order, and the three counters. -/
structure BatchOut where
  results : List RowResult
  success : ℕ
  failed : ℕ
  cancelled : ℕ
deriving DecidableEq

/-- Final statistics sent through `finished`. -/
structure BatchStats where
  total : ℕ
  success : ℕ
  failed : ℕ
  cancelled : ℕ
deriving DecidableEq

/-- The row loop of `ProcessWorker._process`: at the top of each iteration the
stop flag (as observed at that iteration, `stopped idx`) is checked; if set,
the cancelled counter is incremented once and the loop breaks.  Otherwise the
row is processed in environment `envs idx`, its result emitted, and the
success/failure counters updated. -/
def runRows (cfg : Config) (m : AudioMap) (envs : ℕ → Env) (stopped : ℕ → Bool) :
    List Row → ℕ → BatchOut
  | [], _ => ⟨[], 0, 0, 0⟩
  | row :: rest, idx =>
    if stopped idx then ⟨[], 0, 0, 1⟩
    else
      let res := process_single_row cfg m (envs idx) row idx
      let tail := runRows cfg m envs stopped rest (idx + 1)
      ⟨res :: tail.results,
        (if res.status = .success then 1 else 0) + tail.success,
        (if res.status = .failed then 1 else 0) + tail.failed,
        tail.cancelled⟩

/-- `ProcessWorker._process`: run all rows from index 0 and assemble the
statistics (`total` is the row count of the spreadsheet). -/
def process (cfg : Config) (m : AudioMap) (rows : List Row) (envs : ℕ → Env)
    (stopped : ℕ → Bool) : List RowResult × BatchStats :=
  let out := runRows cfg m envs stopped rows 0
  (out.results, ⟨rows.length, out.success, out.failed, out.cancelled⟩)

/- ### concrete fixtures used by the witnesses and counterexamples -/

/-- Environment of an untroubled row: decode succeeds (30 s asset), no fault,
no stop request, every export succeeds, empty destination directory. -/
def quietEnv : Env :=
  { fault := none, audioLen := some 30000, stopFull := false, stopPart1 := false,
    stopPart2 := false, exportOk := fun _ => true, existing := [] }

/-- A plain configuration: wav, both modes, overwrite, id-first, no
adjustments. -/
def fixtureCfg : Config :=
  { outputDir := "out", exportFormat := "wav", modeFull := true, modeSplit := true,
    overwrite := true, matchStrategy := .idFirst, startAdjust := ⟨0, 1⟩,
    endAdjust := ⟨0, 1⟩ }

/-- A row with every cell missing (its match always fails). -/
def rowEmpty : Row := ⟨.absent, .absent, none, none, none⟩

/-- A row whose parsed window is reversed (start 10 s, end 5 s). -/
def rowReversed : Row := ⟨.val "1", .absent, some "10", some "5", none⟩

/-- A row requesting window [10 s, 20 s] with the split point 25 s outside
it. -/
def rowSplit25 : Row := ⟨.val "1", .absent, some "10", some "20", some "25"⟩

/-- Index holding the single asset `d/1.wav`. -/
def fixtureMap : AudioMap := build_audio_map ["d/1.wav"]

/-- A row whose id column is present but blank (NaN) while its name is
`"hello"` and its window is [10 s, 20 s]: the id-first cascade matches it by
name, but the program derives the base name `"nan"`. -/
def rowNanId : Row := ⟨.nan, .val "hello", some "10", some "20", none⟩

/-! ## Infrastructure lemmas -/

theorem str_data_append (a b : String) : (a ++ b).data = a.data ++ b.data := by
  cases a; cases b; rfl

theorem str_append_assoc (a b c : String) : a ++ b ++ c = a ++ (b ++ c) := by
  cases a; cases b; cases c
  exact congrArg String.mk (List.append_assoc _ _ _)

theorem str_ne_empty_of_data (s : String) (h : s.data ≠ []) : s ≠ "" := by
  intro hc
  subst hc
  exact h rfl

theorem str_append_ne_empty_left (a b : String) (ha : a ≠ "") : a ++ b ≠ "" := by
  apply str_ne_empty_of_data
  rw [str_data_append]
  intro h
  rcases List.append_eq_nil.mp h with ⟨h1, _⟩
  cases a
  cases h1
  exact ha rfl

theorem str_append_ne_empty_right (a b : String) (hb : b ≠ "") : a ++ b ≠ "" := by
  apply str_ne_empty_of_data
  rw [str_data_append]
  intro h
  rcases List.append_eq_nil.mp h with ⟨_, h2⟩
  cases b
  cases h2
  exact hb rfl

theorem outPathFor_ne_empty (cfg : Config) (env : Env) (f : String) :
    outPathFor cfg env f ≠ "" := by
  unfold outPathFor
  split
  · exact str_append_ne_empty_left _ _ (str_append_ne_empty_right _ _ (by decide))
  · unfold get_unique_filename uniqueCandidate
    split
    · exact str_append_ne_empty_left _ _ (str_append_ne_empty_right _ _ (by decide))
    · exact str_append_ne_empty_left _ _ (str_append_ne_empty_right _ _ (by decide))

theorem outPathFor_shape (cfg : Config) (env : Env) (fname : String) :
    ∃ rest, outPathFor cfg env fname = cfg.outputDir ++ "/" ++ fname ++ rest := by
  unfold outPathFor
  split
  · exact ⟨"." ++ cfg.exportFormat, by simp only [str_append_assoc]⟩
  · unfold get_unique_filename uniqueCandidate
    split
    · exact ⟨"." ++ cfg.exportFormat, by simp only [str_append_assoc]⟩
    · exact ⟨"(" ++ toString (firstFreeIdx env.existing cfg.outputDir fname
        cfg.exportFormat (env.existing.length + 1) 0) ++ ")." ++ cfg.exportFormat,
        by simp only [str_append_assoc]⟩

theorem runRows_len_no_stop (cfg : Config) (m : AudioMap) (envs : ℕ → Env)
    (rows : List Row) :
    ∀ idx, (runRows cfg m envs (fun _ => false) rows idx).results.length = rows.length := by
  induction rows with
  | nil => intro idx; rfl
  | cons r rest ih => intro idx; simp [runRows, ih]

theorem splitOnChar_ne_nil (sep : Char) : ∀ cs, splitOnChar sep cs ≠ []
  | [] => by simp [splitOnChar]
  | c :: t => by
    unfold splitOnChar
    split
    · simp
    · split <;> simp

theorem splitOnChar_append (sep : Char) (a rest : List Char) (h : sep ∉ a) :
    splitOnChar sep (a ++ sep :: rest) = a :: splitOnChar sep rest := by
  induction a with
  | nil =>
    simp only [List.nil_append]
    conv_lhs => rw [splitOnChar]
    cases hs : splitOnChar sep rest with
    | nil => exact absurd hs (splitOnChar_ne_nil sep rest)
    | cons hd tl => simp
  | cons c t ih =>
    have hc : c ≠ sep := fun hcc => h (by simp [hcc])
    have ht : sep ∉ t := fun hm => h (List.mem_cons_of_mem _ hm)
    simp only [List.cons_append]
    conv_lhs => rw [splitOnChar]
    rw [ih ht]
    simp [hc]

theorem splitOnChar_no_sep (sep : Char) (a : List Char) (h : sep ∉ a) :
    splitOnChar sep a = [a] := by
  induction a with
  | nil => rfl
  | cons c t ih =>
    have hc : c ≠ sep := fun hcc => h (by simp [hcc])
    have ht : sep ∉ t := fun hm => h (List.mem_cons_of_mem _ hm)
    conv_lhs => rw [splitOnChar]
    rw [ih ht]
    simp [hc]

theorem colon_not_mem_digits (l : List Char) (h : l.all Char.isDigit = true) :
    ':' ∉ l := by
  intro hm
  exact absurd (List.all_eq_true.mp h _ hm) (by decide)

theorem colon_not_mem_decimal (c : List Char) (h : decimalNum c = true) : ':' ∉ c := by
  intro hm
  unfold decimalNum at h
  split at h
  · rename_i ds heq
    rw [List.span_eq_take_drop] at heq
    have h2 : c.dropWhile Char.isDigit = [] := congrArg Prod.snd heq
    rw [← List.takeWhile_append_dropWhile (p := Char.isDigit) (l := c), h2] at hm
    rcases List.mem_append.mp hm with hin | hin
    · exact absurd (List.mem_takeWhile_imp hin) (by decide)
    · cases hin
  · rename_i ds t heq
    rw [List.span_eq_take_drop] at heq
    have h2 : c.dropWhile Char.isDigit = '.' :: t := congrArg Prod.snd heq
    rw [← List.takeWhile_append_dropWhile (p := Char.isDigit) (l := c), h2] at hm
    rcases List.mem_append.mp hm with hin | hin
    · exact absurd (List.mem_takeWhile_imp hin) (by decide)
    · rcases List.mem_cons.mp hin with hin | hin
      · exact absurd hin (by decide)
      · have ht : t.all Char.isDigit = true := by
          simp only [Bool.and_eq_true] at h
          exact h.2
        exact absurd (List.all_eq_true.mp ht _ hin) (by decide)
  · cases h

/-! ## Claims -/

/-- C2: `parse_time` returns null on missing or (after stripping) empty
input; otherwise it first attempts a bare numeric parse, then the colon
formats — `H:MM:SS[.frac]` mapping to `H*3600 + MM*60 + SS` and `M:SS[.frac]`
mapping to `M*60 + SS` — and returns null if none applies; in particular
`parse("90") = 90.0`, `parse("90.5") = 90.5`, `parse("1:30") = 90.0`,
`parse("0:01:30") = 90.0` and `parse("")` is null. -/
theorem C2_parse_time_spec :
    parse_time none = none ∧
    (∀ s : String, stripL s.data = [] → parse_time (some s) = none) ∧
    (∀ (s : String) (q : PyF), pyFloat (pyStrip s) = some q →
        parse_time (some s) = some q) ∧
    (∀ s : String, stripL s.data ≠ [] → pyFloat (pyStrip s) = none →
        parse_time (some s) = colonParse (stripL s.data)) ∧
    (∀ a b c : List Char, a ≠ [] → a.all Char.isDigit = true → b ≠ [] →
        b.all Char.isDigit = true → decimalNum c = true →
        colonParse (a ++ ':' :: (b ++ ':' :: c))
          = some (PyF.add ⟨(digitsToNat a) * 3600 + (digitsToNat b) * 60, 1⟩
              (decimalVal c))) ∧
    (∀ a b : List Char, a ≠ [] → a.all Char.isDigit = true → decimalNum b = true →
        colonParse (a ++ ':' :: b)
          = some (PyF.add ⟨(digitsToNat a) * 60, 1⟩ (decimalVal b))) ∧
    ((parse_time (some "90")).map PyF.toRat = some 90 ∧
      (parse_time (some "90.5")).map PyF.toRat = some 90.5 ∧
      (parse_time (some "1:30")).map PyF.toRat = some 90 ∧
      (parse_time (some "0:01:30")).map PyF.toRat = some 90 ∧
      parse_time (some "") = none) := by
  refine ⟨rfl, ?_, ?_, ?_, ?_, ?_, ?_, ?_, ?_, ?_, ?_⟩
  · intro s h
    simp [parse_time, pyStrip, h]
  · intro s q h
    have hne : ¬ (pyStrip s).data.isEmpty = true := by
      intro he
      have hnil : (pyStrip s).data = [] := by simpa using he
      rw [pyFloat, hnil, (by decide : pyFloatCore [] = none)] at h
      exact nomatch h
    simp [parse_time, hne, h]
  · intro s hne h
    have h' : pyFloat ⟨stripL s.data⟩ = none := h
    simp [parse_time, pyStrip, hne, h']
  · intro a b c ha hda hb hdb hdc
    have h1 : ':' ∉ a := colon_not_mem_digits a hda
    have h2 : ':' ∉ b := colon_not_mem_digits b hdb
    have h3 : ':' ∉ c := colon_not_mem_decimal c hdc
    have ha' : a.isEmpty = false := by cases a with
      | nil => exact absurd rfl ha
      | cons x t => rfl
    have hb' : b.isEmpty = false := by cases b with
      | nil => exact absurd rfl hb
      | cons x t => rfl
    unfold colonParse
    rw [splitOnChar_append ':' a _ h1, splitOnChar_append ':' b _ h2,
      splitOnChar_no_sep ':' c h3]
    simp [ha', hda, hb', hdb, hdc]
  · intro a b ha hda hdb
    have h1 : ':' ∉ a := colon_not_mem_digits a hda
    have h2 : ':' ∉ b := colon_not_mem_decimal b hdb
    have ha' : a.isEmpty = false := by cases a with
      | nil => exact absurd rfl ha
      | cons x t => rfl
    unfold colonParse
    rw [splitOnChar_append ':' a _ h1, splitOnChar_no_sep ':' b h2]
    simp [ha', hda, hdb]
  · rw [show parse_time (some "90") = some ⟨90, 1⟩ from by decide]
    norm_num [PyF.toRat]
  · rw [show parse_time (some "90.5") = some ⟨905, 10⟩ from by decide]
    norm_num [PyF.toRat]
  · rw [show parse_time (some "1:30") = some (PyF.add ⟨60, 1⟩ ⟨30, 1⟩) from by decide]
    norm_num [PyF.toRat, PyF.add]
  · rw [show parse_time (some "0:01:30") = some (PyF.add ⟨60, 1⟩ ⟨30, 1⟩) from by decide]
    norm_num [PyF.toRat, PyF.add]
  · decide

/-- C2 (witness): the H:MM:SS branch applied at the concrete digits of
"0:01:30". -/
theorem C2_parse_time_spec_witness :
    colonParse (['0'] ++ ':' :: (['0', '1'] ++ ':' :: ['3', '0']))
      = some (PyF.add ⟨(digitsToNat ['0']) * 3600 + (digitsToNat ['0', '1']) * 60, 1⟩
          (decimalVal ['3', '0'])) :=
  C2_parse_time_spec.2.2.2.2.1 ['0'] ['0', '1'] ['3', '0'] (by decide) (by decide)
    (by decide) (by decide) (by decide)

theorem takeWhile_digits_append (l xs : List Char) (x : Char)
    (hl : l.all Char.isDigit = true) (hx : Char.isDigit x = false) :
    (l ++ x :: xs).takeWhile Char.isDigit = l := by
  induction l with
  | nil => simp [List.takeWhile_cons, hx]
  | cons c t ih =>
    simp only [List.all_cons, Bool.and_eq_true] at hl
    simp [List.takeWhile_cons, hl.1, ih hl.2]

theorem dropWhile_digits_append (l xs : List Char) (x : Char)
    (hl : l.all Char.isDigit = true) (hx : Char.isDigit x = false) :
    (l ++ x :: xs).dropWhile Char.isDigit = x :: xs := by
  induction l with
  | nil => simp [List.dropWhile_cons, hx]
  | cons c t ih =>
    simp only [List.all_cons, Bool.and_eq_true] at hl
    simp [List.dropWhile_cons, hl.1, ih hl.2]

theorem pyFloatMag_digits_dot0 (sgn : ℤ) (l : List Char) (hne : l ≠ [])
    (hdig : l.all Char.isDigit = true) :
    pyFloatMag sgn (l ++ ['.', '0']) = some ⟨sgn * ((digitsToNat l) * 10), 10⟩ := by
  have hspan : (l ++ ['.', '0']).span Char.isDigit = (l, ['.', '0']) := by
    rw [List.span_eq_take_drop, takeWhile_digits_append l ['0'] '.' hdig (by decide),
      dropWhile_digits_append l ['0'] '.' hdig (by decide)]
  have hle : l.isEmpty = false := by
    cases l with
    | nil => exact absurd rfl hne
    | cons c t => rfl
  unfold pyFloatMag
  rw [hspan]
  have h0 : digitsToNat ['0'] = 0 := by decide
  simp [hle, pyExpPart, h0]

theorem pyFloat_digits_dot0 (l : List Char) (hne : l ≠ [])
    (hdig : l.all Char.isDigit = true) :
    pyFloat ⟨l ++ ['.', '0']⟩ = some ⟨(1 : ℤ) * ((digitsToNat l) * 10), 10⟩ := by
  show pyFloatCore (l ++ ['.', '0']) = _
  obtain ⟨c, t, rfl⟩ : ∃ c t, l = c :: t := by
    cases l with
    | nil => exact absurd rfl hne
    | cons c t => exact ⟨c, t, rfl⟩
  have hc : Char.isDigit c = true := by
    simp only [List.all_cons, Bool.and_eq_true] at hdig
    exact hdig.1
  rw [show ((c :: t) ++ ['.', '0']) = c :: (t ++ ['.', '0']) from rfl]
  unfold pyFloatCore
  split
  · rename_i heq
    injection heq with hh _
    rw [hh] at hc
    exact absurd hc (by decide)
  · rename_i heq
    injection heq with hh _
    rw [hh] at hc
    exact absurd hc (by decide)
  · rw [show c :: (t ++ ['.', '0']) = (c :: t) ++ ['.', '0'] from rfl]
    exact pyFloatMag_digits_dot0 1 (c :: t) hne hdig

/-- C4: the trailing-`.0` artifact of a numeric id is normalised to the
integer's text before any comparison tier runs (first conjunct, for every
digit string); consequently, under the id-first strategy the row id
`"12345.0"` exact-matches the asset whose stem carries the normalised text
`"12345"`, and the row id `"12345"` matches the asset stem `"12345-vocal"`
through the delimited-prefix tier. -/
theorem C4_id_normalization :
    (∀ l : List Char, l ≠ [] → l.all Char.isDigit = true →
        normalizeId ⟨l ++ ['.', '0']⟩ = Nat.repr (digitsToNat l)) ∧
    match_audio_file ⟨.val "12345.0", .absent, none, none, none⟩
        (build_audio_map ["d/12345.mp3"]) .idFirst = some "d/12345.mp3" ∧
    match_audio_file ⟨.val "12345", .absent, none, none, none⟩
        (build_audio_map ["d/12345-vocal.wav"]) .idFirst = some "d/12345-vocal.wav" := by
  refine ⟨?_, by decide, by decide⟩
  intro l hne hdig
  have hdig' : ∀ a ∈ l, a ≠ '.' ∧ a ≠ '-' := by
    intro a ha
    have hd := List.all_eq_true.mp hdig a ha
    constructor <;> (intro hh; rw [hh] at hd; exact absurd hd (by decide))
  have hcontains : (l ++ ['.', '0']).contains '.' = true := by
    simp [List.contains]
  have hrm1 : removeChar '.' ⟨l ++ ['.', '0']⟩ = ⟨l ++ ['0']⟩ := by
    apply congrArg String.mk
    show (l ++ ['.', '0']).filter _ = l ++ ['0']
    rw [List.filter_append]
    rw [List.filter_eq_self.mpr (fun a ha => by simp [(hdig' a ha).1])]
    rw [show (['.', '0'].filter (fun x => !(x == '.'))) = ['0'] from by decide]
  have hrm2 : removeChar '-' ⟨l ++ ['0']⟩ = ⟨l ++ ['0']⟩ := by
    apply congrArg String.mk
    show (l ++ ['0']).filter _ = l ++ ['0']
    apply List.filter_eq_self.mpr
    intro a ha
    rcases List.mem_append.mp ha with hin | hin
    · simp [(hdig' a hin).2]
    · rcases List.mem_cons.mp hin with hin | hin
      · rw [hin]; decide
      · cases hin
  have hisdig : pyIsdigit ⟨l ++ ['0']⟩ = true := by
    show (!(l ++ ['0']).isEmpty && (l ++ ['0']).all Char.isDigit) = true
    have h1 : (l ++ ['0']).isEmpty = false := by
      cases l <;> rfl
    have h2 : (l ++ ['0']).all Char.isDigit = true := by
      rw [List.all_append, hdig]
      decide
    simp [h1, h2]
  have hfloat := pyFloat_digits_dot0 l hne hdig
  have htr : PyF.trunc ⟨(1 : ℤ) * ((digitsToNat l) * 10), 10⟩ = (digitsToNat l : ℤ) := by
    show ((1 : ℤ) * ((digitsToNat l) * 10)).tdiv (((10 : ℕ) : ℤ)) = _
    rw [one_mul]
    rw [show (((10 : ℕ) : ℤ)) = (10 : ℤ) from by norm_num]
    exact Int.mul_tdiv_cancel _ (by norm_num)
  unfold normalizeId
  rw [show (⟨l ++ ['.', '0']⟩ : String).data = l ++ ['.', '0'] from rfl, hcontains,
    hrm1, hrm2, hisdig]
  simp only [Bool.and_self, if_true]
  rw [hfloat]
  show (PyF.trunc ⟨(1 : ℤ) * ((digitsToNat l) * 10), 10⟩).repr = Nat.repr (digitsToNat l)
  rw [htr]
  rfl

/-- C4 (witness): the normalisation conjunct applied at the concrete digits
`"12345"`. -/
theorem C4_id_normalization_witness :
    normalizeId ⟨['1', '2', '3', '4', '5'] ++ ['.', '0']⟩
      = Nat.repr (digitsToNat ['1', '2', '3', '4', '5']) :=
  C4_id_normalization.1 ['1', '2', '3', '4', '5'] (by decide) (by decide)

/-- C3 (counterexample): the claim says `cut_audio` returns null exactly when
`start_ms ≥ end_ms` *after* `end_ms` has been clamped to the asset duration.
On a 5000 ms asset with start 6 s and end 7 s, the clamped end (5000) is ≤
start (6000), yet the code does not return null — the null test happens
before clamping. -/
theorem C3_counterexample :
    ¬ (cut_audio 5000 ⟨6, 1⟩ ⟨7, 1⟩ = none ↔
        min ((PyF.mulNat ⟨7, 1⟩ 1000).trunc) ((5000 : ℕ) : ℤ)
          ≤ (PyF.mulNat ⟨6, 1⟩ 1000).trunc) := by
  decide

/-- C3 (amended): `cut_audio` returns null exactly when `start_ms ≥ end_ms`
computed *before* clamping; otherwise it returns the slice from `start_ms` to
the end clamped to the asset duration (a slice that may be empty when
`start_ms` lies beyond the asset's duration). -/
theorem C3_cut_audio_amended (audioLen : ℕ) (s e : PyF) :
    (cut_audio audioLen s e = none ↔ (e.mulNat 1000).trunc ≤ (s.mulNat 1000).trunc) ∧
    ((s.mulNat 1000).trunc < (e.mulNat 1000).trunc →
      cut_audio audioLen s e
        = some ((s.mulNat 1000).trunc, min ((e.mulNat 1000).trunc) (audioLen : ℤ))) := by
  by_cases hc : (e.mulNat 1000).trunc ≤ (s.mulNat 1000).trunc
  · exact ⟨by simp [cut_audio, hc], fun hlt => absurd hc (not_le.mpr hlt)⟩
  · exact ⟨by simp [cut_audio, hc], fun _ => by simp [cut_audio, hc]⟩

/-- C3 (witness for the amended theorem): cutting [1 s, 2 s] out of a 5 s
asset yields the slice from 1000 ms to min(2000, 5000) ms. -/
theorem C3_cut_audio_amended_witness :
    cut_audio 5000 ⟨1, 1⟩ ⟨2, 1⟩
      = some ((PyF.mulNat ⟨1, 1⟩ 1000).trunc,
          min ((PyF.mulNat ⟨2, 1⟩ 1000).trunc) ((5000 : ℕ) : ℤ)) :=
  (C3_cut_audio_amended 5000 ⟨1, 1⟩ ⟨2, 1⟩).2 (by decide)

theorem exportSegment_cases (cfg : Config) (env : Env) (len : ℕ) (s e : PyF)
    (fname : String) (r : RowResult) (set : RowResult → String → RowResult) :
    exportSegment cfg env len s e fname r set = r ∨
    exportSegment cfg env len s e fname r set = set r (outPathFor cfg env fname) := by
  unfold exportSegment
  split
  · exact Or.inl rfl
  · split
    · split
      · exact Or.inr rfl
      · exact Or.inl rfl
    · exact Or.inl rfl

theorem exportSegment_done (cfg : Config) (env : Env) (len : ℕ) (s e : PyF)
    (fname : String) (r : RowResult) (set : RowResult → String → RowResult)
    (seg : ℤ × ℤ) (hcut : cut_audio len s e = some seg) (hpos : 0 < seg.2 - seg.1)
    (hexp : env.exportOk (outPathFor cfg env fname) = true) :
    exportSegment cfg env len s e fname r set = set r (outPathFor cfg env fname) := by
  unfold exportSegment
  rw [hcut]
  dsimp only
  rw [if_pos hpos, if_pos hexp]

theorem finalize_status (r : RowResult) :
    (finalize r).status = .success ∨ (finalize r).status = r.status := by
  unfold finalize
  split
  · exact Or.inl rfl
  · exact Or.inr rfl

theorem finalize_outputs (r : RowResult) :
    (finalize r).output_full = r.output_full ∧
    (finalize r).output_part1 = r.output_part1 ∧
    (finalize r).output_part2 = r.output_part2 := by
  unfold finalize
  split <;> exact ⟨rfl, rfl, rfl⟩

theorem finalize_spec (r : RowResult) (hst : r.status = .failed) :
    ((finalize r).status = .success ∨ (finalize r).status = .failed) ∧
    ((finalize r).status = .success ↔
      ((finalize r).output_full ≠ "" ∨ (finalize r).output_part1 ≠ "" ∨
        (finalize r).output_part2 ≠ "")) ∧
    ((finalize r).status = .failed → (finalize r).error ≠ "") := by
  unfold finalize
  split
  · rename_i hout
    refine ⟨Or.inl rfl, by simpa using hout, ?_⟩
    intro hfail
    exact absurd hfail (by simp)
  · rename_i hout
    push_neg at hout
    refine ⟨Or.inr hst, ?_, fun _ => by simp [noOutputMsg]⟩
    constructor
    · intro hsucc
      rw [show ({ r with error := noOutputMsg } : RowResult).status = r.status from rfl,
        hst] at hsucc
      exact absurd hsucc (by simp)
    · intro hsome
      rcases hsome with h | h | h <;>
        simp only [show ({ r with error := noOutputMsg } : RowResult).output_full
            = r.output_full from rfl,
          show ({ r with error := noOutputMsg } : RowResult).output_part1
            = r.output_part1 from rfl,
          show ({ r with error := noOutputMsg } : RowResult).output_part2
            = r.output_part2 from rfl] at h <;>
        first
          | exact absurd hout.1 h
          | exact absurd hout.2.1 h
          | exact absurd hout.2.2 h

theorem exportSegment_preserve (f : RowResult → String) (cfg : Config) (env : Env)
    (len : ℕ) (s e : PyF) (fname : String) (r : RowResult)
    (set : RowResult → String → RowResult)
    (hset : ∀ r p, f (set r p) = f r) :
    f (exportSegment cfg env len s e fname r set) = f r := by
  rcases exportSegment_cases cfg env len s e fname r set with h | h
  · rw [h]
  · rw [h, hset]

theorem exportSegment_status (cfg : Config) (env : Env) (len : ℕ) (s e : PyF)
    (fname : String) (r : RowResult) (set : RowResult → String → RowResult)
    (hset : ∀ r p, (set r p).status = r.status) :
    (exportSegment cfg env len s e fname r set).status = r.status := by
  rcases exportSegment_cases cfg env len s e fname r set with h | h
  · rw [h]
  · rw [h, hset]

theorem finalize_error_cases (r : RowResult) :
    (finalize r).error = r.error ∨ (finalize r).error = noOutputMsg := by
  unfold finalize
  split
  · exact Or.inl rfl
  · exact Or.inr rfl

theorem splitStage_output_full (cfg : Config) (env : Env) (len : ℕ) (base : String)
    (ts te : PyF) (sp : Option PyF) (r2 : RowResult) :
    (splitStage cfg env len base ts te sp r2).output_full = r2.output_full := by
  unfold splitStage
  split
  · cases sp with
    | none => rw [(finalize_outputs _).1]
    | some tsp =>
      dsimp only
      split
      · rw [(finalize_outputs _).1]
      · split
        · rfl
        · split
          · exact exportSegment_preserve RowResult.output_full cfg env len ts tsp
              (base ++ part1Suffix) r2 setPart1 (fun r p => rfl)
          · rw [(finalize_outputs _).1]
            exact (exportSegment_preserve RowResult.output_full cfg env len tsp te
                (base ++ part2Suffix) _ setPart2 (fun r p => rfl)).trans
              (exportSegment_preserve RowResult.output_full cfg env len ts tsp
                (base ++ part1Suffix) r2 setPart1 (fun r p => rfl))
  · rw [(finalize_outputs _).1]

theorem splitStage_output_part1_cases (cfg : Config) (env : Env) (len : ℕ)
    (base : String) (ts te : PyF) (sp : Option PyF) (r2 : RowResult) :
    (splitStage cfg env len base ts te sp r2).output_part1 = r2.output_part1 ∨
    (splitStage cfg env len base ts te sp r2).output_part1
      = outPathFor cfg env (base ++ part1Suffix) := by
  unfold splitStage
  split
  · cases sp with
    | none => exact Or.inl ((finalize_outputs _).2.1)
    | some tsp =>
      dsimp only
      split
      · exact Or.inl ((finalize_outputs _).2.1)
      · split
        · exact Or.inl rfl
        · rcases exportSegment_cases cfg env len ts tsp (base ++ part1Suffix) r2
            setPart1 with h | h
          · split
            · left
              rw [h]
            · left
              rw [(finalize_outputs _).2.1]
              exact (exportSegment_preserve RowResult.output_part1 cfg env len tsp te
                  (base ++ part2Suffix) _ setPart2 (fun r p => rfl)).trans
                (congrArg RowResult.output_part1 h)
          · split
            · right
              rw [h]
              rfl
            · right
              rw [(finalize_outputs _).2.1]
              exact (exportSegment_preserve RowResult.output_part1 cfg env len tsp te
                  (base ++ part2Suffix) _ setPart2 (fun r p => rfl)).trans
                (congrArg RowResult.output_part1 h)
  · exact Or.inl ((finalize_outputs _).2.1)

theorem splitStage_output_part2_cases (cfg : Config) (env : Env) (len : ℕ)
    (base : String) (ts te : PyF) (sp : Option PyF) (r2 : RowResult) :
    (splitStage cfg env len base ts te sp r2).output_part2 = r2.output_part2 ∨
    (splitStage cfg env len base ts te sp r2).output_part2
      = outPathFor cfg env (base ++ part2Suffix) := by
  unfold splitStage
  split
  · cases sp with
    | none => exact Or.inl ((finalize_outputs _).2.2)
    | some tsp =>
      dsimp only
      split
      · exact Or.inl ((finalize_outputs _).2.2)
      · split
        · exact Or.inl rfl
        · split
          · left
            exact exportSegment_preserve RowResult.output_part2 cfg env len ts tsp
              (base ++ part1Suffix) r2 setPart1 (fun r p => rfl)
          · rcases exportSegment_cases cfg env len tsp te (base ++ part2Suffix)
              (exportSegment cfg env len ts tsp (base ++ part1Suffix) r2 setPart1)
              setPart2 with h | h
            · left
              rw [(finalize_outputs _).2.2]
              exact (congrArg RowResult.output_part2 h).trans
                (exportSegment_preserve RowResult.output_part2 cfg env len ts tsp
                  (base ++ part1Suffix) r2 setPart1 (fun r p => rfl))
            · right
              rw [(finalize_outputs _).2.2, h]
              rfl
  · exact Or.inl ((finalize_outputs _).2.2)

theorem splitStage_error_cases (cfg : Config) (env : Env) (len : ℕ) (base : String)
    (ts te : PyF) (sp : Option PyF) (r2 : RowResult) :
    (splitStage cfg env len base ts te sp r2).error = r2.error ∨
    (splitStage cfg env len base ts te sp r2).error = splitNeedMsg ∨
    (splitStage cfg env len base ts te sp r2).error = splitRangeMsg ∨
    (splitStage cfg env len base ts te sp r2).error = noOutputMsg := by
  unfold splitStage
  split
  · cases sp with
    | none =>
      rcases finalize_error_cases { r2 with error := splitNeedMsg } with h | h
      · exact Or.inr (Or.inl h)
      · exact Or.inr (Or.inr (Or.inr h))
    | some tsp =>
      dsimp only
      split
      · rcases finalize_error_cases { r2 with error := splitRangeMsg } with h | h
        · exact Or.inr (Or.inr (Or.inl h))
        · exact Or.inr (Or.inr (Or.inr h))
      · split
        · exact Or.inl rfl
        · split
          · left
            exact exportSegment_preserve RowResult.error cfg env len ts tsp
              (base ++ part1Suffix) r2 setPart1 (fun r p => rfl)
          · rcases finalize_error_cases (exportSegment cfg env len tsp te
              (base ++ part2Suffix) (exportSegment cfg env len ts tsp
                (base ++ part1Suffix) r2 setPart1) setPart2) with h | h
            · left
              exact (h.trans (exportSegment_preserve RowResult.error cfg env len tsp te
                  (base ++ part2Suffix) _ setPart2 (fun r p => rfl))).trans
                (exportSegment_preserve RowResult.error cfg env len ts tsp
                  (base ++ part1Suffix) r2 setPart1 (fun r p => rfl))
            · exact Or.inr (Or.inr (Or.inr h))
  · rcases finalize_error_cases r2 with h | h
    · exact Or.inl h
    · exact Or.inr (Or.inr (Or.inr h))

theorem splitStage_spec (cfg : Config) (env : Env) (len : ℕ) (base : String)
    (ts te : PyF) (sp : Option PyF) (r2 : RowResult)
    (hp1 : env.stopPart1 = false) (hp2 : env.stopPart2 = false)
    (hst : r2.status = .failed) :
    ((splitStage cfg env len base ts te sp r2).status = .success ∨
      (splitStage cfg env len base ts te sp r2).status = .failed) ∧
    ((splitStage cfg env len base ts te sp r2).status = .success ↔
      ((splitStage cfg env len base ts te sp r2).output_full ≠ "" ∨
        (splitStage cfg env len base ts te sp r2).output_part1 ≠ "" ∨
        (splitStage cfg env len base ts te sp r2).output_part2 ≠ "")) ∧
    ((splitStage cfg env len base ts te sp r2).status = .failed →
      (splitStage cfg env len base ts te sp r2).error ≠ "") := by
  unfold splitStage
  split
  · cases sp with
    | none => exact finalize_spec { r2 with error := splitNeedMsg } hst
    | some tsp =>
      dsimp only
      split
      · exact finalize_spec { r2 with error := splitRangeMsg } hst
      · rw [hp1]
        rw [if_neg (by simp : ¬ (false = true))]
        rw [hp2]
        rw [if_neg (by simp : ¬ (false = true))]
        apply finalize_spec
        exact ((exportSegment_status cfg env len tsp te (base ++ part2Suffix) _
            setPart2 (fun r p => rfl)).trans
          (exportSegment_status cfg env len ts tsp (base ++ part1Suffix) r2
            setPart1 (fun r p => rfl))).trans hst
  · exact finalize_spec r2 hst

theorem fullStage_cases (cfg : Config) (env : Env) (len : ℕ) (base : String)
    (ts te : PyF) (r1 : RowResult) :
    fullStage cfg env len base ts te r1 = r1 ∨
    fullStage cfg env len base ts te r1
      = { r1 with output_full := outPathFor cfg env (base ++ fullSuffix) } := by
  unfold fullStage
  split
  · exact exportSegment_cases cfg env len ts te (base ++ fullSuffix) r1 setFull
  · exact Or.inl rfl

/-- C5: under the id-first strategy the resolver is exactly the
specification's cascade: id exact, id lowercase-exact, id delimited-prefix or
exact-equal, and only if all id steps fail the same four steps against the
row's name, returning the first match or null. -/
theorem C5_id_first_cascade (row : Row) (m : AudioMap) :
    match_audio_file row m .idFirst = spec_id_first_resolve row m := by
  rcases row with ⟨aid, nm, rs, re, rsp⟩
  dsimp only [match_audio_file, spec_id_first_resolve, tierExact, tierLower,
    tierDelimited]
  cases haid : aid.notna? with
  | none =>
    cases hnm : nm.notna? with
    | none => rfl
    | some a =>
      dsimp only
      cases h1 : dictGet? m (pyStrip a) with
      | some p => rfl
      | none =>
        cases h2 : dictGet? m (pyLower (pyStrip a)) with
        | some p => rfl
        | none =>
          cases h3 : findDelimMatch m (lowerL (pyStrip a).data) with
          | some p => rfl
          | none => rfl
  | some a =>
    dsimp only
    cases h1 : dictGet? m (normalizeId (pyStrip a)) with
    | some p => rfl
    | none =>
      cases h2 : dictGet? m (pyLower (normalizeId (pyStrip a))) with
      | some p => rfl
      | none =>
        cases h3 : findDelimMatch m (lowerL (normalizeId (pyStrip a)).data) with
        | some p => rfl
        | none =>
          cases hnm : nm.notna? with
          | none => rfl
          | some b =>
            dsimp only
            cases h4 : dictGet? m (pyStrip b) with
            | some p => rfl
            | none =>
              cases h5 : dictGet? m (pyLower (pyStrip b)) with
              | some p => rfl
              | none =>
                cases h6 : findDelimMatch m (lowerL (pyStrip b).data) with
                | some p => rfl
                | none => rfl

theorem matchFailMsg_ne_empty (a b : String) : matchFailMsg a b ≠ "" := by
  unfold matchFailMsg
  exact str_append_ne_empty_left _ _ (str_append_ne_empty_left _ _
    (str_append_ne_empty_left _ _ (str_append_ne_empty_left _ _ (by decide))))

/-- C8: for a row processed without cancellation, the terminal result is
Success exactly when at least one requested output was produced (recorded in
the result), otherwise it is Failed with a non-empty error; only non-empty
fault messages are assumed, matching Python exception texts. -/
theorem C8_success_iff_output (cfg : Config) (m : AudioMap) (env : Env) (row : Row)
    (idx : ℕ)
    (hm : ∀ msg, env.fault = some msg → msg ≠ "")
    (h1 : env.stopFull = false) (h2 : env.stopPart1 = false)
    (h3 : env.stopPart2 = false) :
    ((process_single_row cfg m env row idx).status = .success ∨
      (process_single_row cfg m env row idx).status = .failed) ∧
    ((process_single_row cfg m env row idx).status = .success ↔
      ((process_single_row cfg m env row idx).output_full ≠ "" ∨
        (process_single_row cfg m env row idx).output_part1 ≠ "" ∨
        (process_single_row cfg m env row idx).output_part2 ≠ "")) ∧
    ((process_single_row cfg m env row idx).status = .failed →
      (process_single_row cfg m env row idx).error ≠ "") := by
  unfold process_single_row
  cases hf : env.fault with
  | some msg =>
    refine ⟨Or.inr rfl, ⟨fun hst => (nomatch hst), fun ho => ?_⟩, fun _ => hm msg hf⟩
    rcases ho with h | h | h <;> exact absurd rfl h
  | none =>
    cases hmt : match_audio_file row m cfg.matchStrategy with
    | none =>
      refine ⟨Or.inr rfl, ⟨fun hst => (nomatch hst), fun ho => ?_⟩,
        fun _ => matchFailMsg_ne_empty _ _⟩
      rcases ho with h | h | h <;> exact absurd rfl h
    | some path =>
      dsimp only
      cases hs : parse_time row.rawStart with
      | none =>
        refine ⟨Or.inr rfl, ⟨fun hst => (nomatch hst), fun ho => ?_⟩,
          fun _ => (by decide : parseFailMsg ≠ "")⟩
        rcases ho with h | h | h <;> exact absurd rfl h
      | some ts0 =>
        cases he : parse_time row.rawEnd with
        | none =>
          refine ⟨Or.inr rfl, ⟨fun hst => (nomatch hst), fun ho => ?_⟩,
            fun _ => (by decide : parseFailMsg ≠ "")⟩
          rcases ho with h | h | h <;> exact absurd rfl h
        | some te0 =>
          dsimp only
          split
          · refine ⟨Or.inr rfl, ⟨fun hst => (nomatch hst), fun ho => ?_⟩,
              fun _ => (by decide : timeOrderMsg ≠ "")⟩
            rcases ho with h | h | h <;> exact absurd rfl h
          · cases hl : env.audioLen with
            | none =>
              refine ⟨Or.inr rfl, ⟨fun hst => (nomatch hst), fun ho => ?_⟩,
                fun _ => (by decide : loadFailMsg ≠ "")⟩
              rcases ho with h | h | h <;> exact absurd rfl h
            | some len =>
              dsimp only
              rw [h1, Bool.and_false]
              rw [if_neg (by simp : ¬ (false = true))]
              apply splitStage_spec _ _ _ _ _ _ _ _ h2 h3
              rcases fullStage_cases cfg env len (sanitize (baseNameOf row idx) 200)
                ((ts0.sub cfg.startAdjust).max0) (te0.add cfg.endAdjust)
                { mkInitResult row with input_path := path } with h | h
              · rw [h]
                rfl
              · rw [h]
                rfl

/-- C8 (witness): the reversed-window row in an untroubled environment is
Failed with a non-empty error; do note the theorem applies to any
non-cancelled row. -/
theorem C8_success_iff_output_witness :
    (process_single_row fixtureCfg fixtureMap quietEnv rowReversed 0).status
      = .failed ∧
    (process_single_row fixtureCfg fixtureMap quietEnv rowReversed 0).error ≠ "" := by
  have h := C8_success_iff_output fixtureCfg fixtureMap quietEnv rowReversed 0
    (fun msg hmsg => nomatch hmsg) rfl rfl rfl
  have hst : (process_single_row fixtureCfg fixtureMap quietEnv rowReversed 0).status
      = .failed := by decide
  exact ⟨hst, h.2.2 hst⟩

/-- C6: once a row has matched and both times parsed, the derived window uses
effectiveStart = max(0, parsedStart − startAdjust) and effectiveEnd =
parsedEnd + endAdjust, and the row fails with the time-order error — yielding
no output — exactly when effectiveStart ≥ effectiveEnd. -/
theorem C6_effective_window (cfg : Config) (m : AudioMap) (env : Env) (row : Row)
    (idx : ℕ) (p : String) (ts0 te0 : PyF)
    (hf : env.fault = none)
    (hmatch : match_audio_file row m cfg.matchStrategy = some p)
    (hs : parse_time row.rawStart = some ts0)
    (he : parse_time row.rawEnd = some te0) :
    ((process_single_row cfg m env row idx).error = timeOrderMsg ↔
      (te0.add cfg.endAdjust).le ((ts0.sub cfg.startAdjust).max0)) ∧
    ((te0.add cfg.endAdjust).le ((ts0.sub cfg.startAdjust).max0) →
      process_single_row cfg m env row idx
        = { mkInitResult row with input_path := p, error := timeOrderMsg }) := by
  unfold process_single_row
  rw [hf, hmatch]
  dsimp only
  rw [hs, he]
  dsimp only
  by_cases hord : (te0.add cfg.endAdjust).le ((ts0.sub cfg.startAdjust).max0)
  · rw [if_pos hord]
    exact ⟨⟨fun _ => hord, fun _ => rfl⟩, fun _ => rfl⟩
  · rw [if_neg hord]
    refine ⟨⟨fun herr => ?_, fun hh => absurd hh hord⟩, fun hh => absurd hh hord⟩
    exfalso
    cases hl : env.audioLen with
    | none =>
      rw [hl] at herr
      exact absurd herr (by decide : loadFailMsg ≠ timeOrderMsg)
    | some len =>
      rw [hl] at herr
      dsimp only at herr
      cases hstop : (cfg.modeFull && env.stopFull) with
      | true =>
        rw [hstop, if_pos rfl] at herr
        exact absurd herr (by decide : ("" : String) ≠ timeOrderMsg)
      | false =>
        rw [hstop, if_neg (by simp : ¬ (false = true))] at herr
        rcases splitStage_error_cases cfg env len (sanitize (baseNameOf row idx) 200)
          ((ts0.sub cfg.startAdjust).max0) (te0.add cfg.endAdjust)
          (parse_time row.rawSplit)
          (fullStage cfg env len (sanitize (baseNameOf row idx) 200)
            ((ts0.sub cfg.startAdjust).max0) (te0.add cfg.endAdjust)
            { mkInitResult row with input_path := p }) with h | h | h | h
        · rw [h] at herr
          rcases fullStage_cases cfg env len (sanitize (baseNameOf row idx) 200)
            ((ts0.sub cfg.startAdjust).max0) (te0.add cfg.endAdjust)
            { mkInitResult row with input_path := p } with h2 | h2
          · rw [h2] at herr
            exact absurd herr (by decide : ("" : String) ≠ timeOrderMsg)
          · rw [h2] at herr
            exact absurd herr (by decide : ("" : String) ≠ timeOrderMsg)
        · rw [h] at herr
          exact absurd herr (by decide : splitNeedMsg ≠ timeOrderMsg)
        · rw [h] at herr
          exact absurd herr (by decide : splitRangeMsg ≠ timeOrderMsg)
        · rw [h] at herr
          exact absurd herr (by decide : noOutputMsg ≠ timeOrderMsg)

/-- C6 (witness): a row whose parsed window is [10 s, 5 s] yields the
time-order error. -/
theorem C6_effective_window_witness :
    (process_single_row fixtureCfg fixtureMap quietEnv rowReversed 0).error
      = timeOrderMsg :=
  (C6_effective_window fixtureCfg fixtureMap quietEnv rowReversed 0 "d/1.wav"
    ⟨10, 1⟩ ⟨5, 1⟩ rfl (by decide) (by decide) (by decide)).1.mpr (by decide)

/-- C7: when both the full segment and the split segments are requested and
the split time is missing or not strictly inside the effective window, the
full-window output is still cut and exported — only part1/part2 are withheld
— and the row still counts as Success. -/
theorem C7_split_failure_full_output (cfg : Config) (m : AudioMap) (env : Env)
    (row : Row) (idx : ℕ) (p : String) (ts0 te0 : PyF) (len : ℕ)
    (hf : env.fault = none)
    (h1 : env.stopFull = false) (h2 : env.stopPart1 = false)
    (h3 : env.stopPart2 = false)
    (hmatch : match_audio_file row m cfg.matchStrategy = some p)
    (hs : parse_time row.rawStart = some ts0)
    (he : parse_time row.rawEnd = some te0)
    (hlen : env.audioLen = some len)
    (hfull : cfg.modeFull = true) (hsplit : cfg.modeSplit = true)
    (hord : ¬ (te0.add cfg.endAdjust).le ((ts0.sub cfg.startAdjust).max0))
    (hbad : parse_time row.rawSplit = none ∨
      ∃ v, parse_time row.rawSplit = some v ∧
        (v.le ((ts0.sub cfg.startAdjust).max0) ∨ (te0.add cfg.endAdjust).le v))
    (hlt : ((((ts0.sub cfg.startAdjust).max0).mulNat 1000).trunc)
      < (((te0.add cfg.endAdjust).mulNat 1000).trunc))
    (hpos : 0 < min (((te0.add cfg.endAdjust).mulNat 1000).trunc) ((len : ℕ) : ℤ)
      - ((((ts0.sub cfg.startAdjust).max0).mulNat 1000).trunc))
    (hexp : env.exportOk (outPathFor cfg env
      (sanitize (baseNameOf row idx) 200 ++ fullSuffix)) = true) :
    (process_single_row cfg m env row idx).output_full
      = outPathFor cfg env (sanitize (baseNameOf row idx) 200 ++ fullSuffix) ∧
    (process_single_row cfg m env row idx).output_part1 = "" ∧
    (process_single_row cfg m env row idx).output_part2 = "" ∧
    (process_single_row cfg m env row idx).status = .success := by
  have hcut : cut_audio len ((ts0.sub cfg.startAdjust).max0) (te0.add cfg.endAdjust)
      = some (((((ts0.sub cfg.startAdjust).max0).mulNat 1000).trunc),
          min (((te0.add cfg.endAdjust).mulNat 1000).trunc) ((len : ℕ) : ℤ)) := by
    unfold cut_audio
    rw [if_neg (not_le.mpr hlt)]
  have hfs : fullStage cfg env len (sanitize (baseNameOf row idx) 200)
      ((ts0.sub cfg.startAdjust).max0) (te0.add cfg.endAdjust)
      { mkInitResult row with input_path := p }
      = setFull { mkInitResult row with input_path := p }
          (outPathFor cfg env (sanitize (baseNameOf row idx) 200 ++ fullSuffix)) := by
    unfold fullStage
    rw [hfull, if_pos rfl]
    exact exportSegment_done cfg env len _ _ _ _ setFull _ hcut hpos hexp
  have hne := outPathFor_ne_empty cfg env (sanitize (baseNameOf row idx) 200 ++ fullSuffix)
  unfold process_single_row
  rw [hf, hmatch]
  dsimp only
  rw [hs, he]
  dsimp only
  rw [if_neg hord, hlen]
  dsimp only
  rw [h1, Bool.and_false]
  rw [if_neg (by simp : ¬ (false = true))]
  rw [hfs]
  unfold splitStage
  rw [hsplit, if_pos rfl]
  rcases hbad with hnone | ⟨v, hv, hb⟩
  · rw [hnone]
    dsimp only
    unfold finalize
    split
    · exact ⟨rfl, rfl, rfl, rfl⟩
    · rename_i hcond
      exact absurd (Or.inl hne) hcond
  · rw [hv]
    dsimp only
    rw [if_pos hb]
    unfold finalize
    split
    · exact ⟨rfl, rfl, rfl, rfl⟩
    · rename_i hcond
      exact absurd (Or.inl hne) hcond

/-- C7 (witness): window [10 s, 20 s] with split 25 s on a 30 s asset — the
full output is produced, the parts are not, and the row is Success. -/
theorem C7_split_failure_full_output_witness :
    (process_single_row fixtureCfg fixtureMap quietEnv rowSplit25 0).output_full
      = outPathFor fixtureCfg quietEnv (sanitize (baseNameOf rowSplit25 0) 200 ++ fullSuffix) ∧
    (process_single_row fixtureCfg fixtureMap quietEnv rowSplit25 0).output_part1 = "" ∧
    (process_single_row fixtureCfg fixtureMap quietEnv rowSplit25 0).output_part2 = "" ∧
    (process_single_row fixtureCfg fixtureMap quietEnv rowSplit25 0).status = .success :=
  C7_split_failure_full_output fixtureCfg fixtureMap quietEnv rowSplit25 0 "d/1.wav"
    ⟨10, 1⟩ ⟨20, 1⟩ 30000 rfl rfl rfl rfl (by decide) (by decide) (by decide) rfl rfl
    rfl (by decide) (Or.inr ⟨⟨25, 1⟩, by decide, Or.inr (by decide)⟩) (by decide)
    (by decide) rfl

theorem mem_stripL (x : Char) (l : List Char) (hx : x ∈ stripL l) : x ∈ l := by
  unfold stripL at hx
  rw [List.mem_reverse] at hx
  have h1 := (List.dropWhile_sublist (l := (l.dropWhile Char.isWhitespace).reverse)
    Char.isWhitespace).subset hx
  rw [List.mem_reverse] at h1
  exact (List.dropWhile_sublist (l := l) Char.isWhitespace).subset h1

theorem psr_outputs_cases (cfg : Config) (m : AudioMap) (env : Env) (row : Row)
    (idx : ℕ) :
    ((process_single_row cfg m env row idx).output_full = "" ∨
      (process_single_row cfg m env row idx).output_full
        = outPathFor cfg env (sanitize (baseNameOf row idx) 200 ++ fullSuffix)) ∧
    ((process_single_row cfg m env row idx).output_part1 = "" ∨
      (process_single_row cfg m env row idx).output_part1
        = outPathFor cfg env (sanitize (baseNameOf row idx) 200 ++ part1Suffix)) ∧
    ((process_single_row cfg m env row idx).output_part2 = "" ∨
      (process_single_row cfg m env row idx).output_part2
        = outPathFor cfg env (sanitize (baseNameOf row idx) 200 ++ part2Suffix)) := by
  unfold process_single_row
  cases hf : env.fault with
  | some msg => exact ⟨Or.inl rfl, Or.inl rfl, Or.inl rfl⟩
  | none =>
    cases hmt : match_audio_file row m cfg.matchStrategy with
    | none => exact ⟨Or.inl rfl, Or.inl rfl, Or.inl rfl⟩
    | some path =>
      dsimp only
      cases hs : parse_time row.rawStart with
      | none => exact ⟨Or.inl rfl, Or.inl rfl, Or.inl rfl⟩
      | some ts0 =>
        cases he : parse_time row.rawEnd with
        | none => exact ⟨Or.inl rfl, Or.inl rfl, Or.inl rfl⟩
        | some te0 =>
          dsimp only
          split
          · exact ⟨Or.inl rfl, Or.inl rfl, Or.inl rfl⟩
          · cases hl : env.audioLen with
            | none => exact ⟨Or.inl rfl, Or.inl rfl, Or.inl rfl⟩
            | some len =>
              dsimp only
              split
              · exact ⟨Or.inl rfl, Or.inl rfl, Or.inl rfl⟩
              · refine ⟨?_, ?_, ?_⟩
                · rw [splitStage_output_full]
                  rcases fullStage_cases cfg env len (sanitize (baseNameOf row idx) 200)
                    ((ts0.sub cfg.startAdjust).max0) (te0.add cfg.endAdjust)
                    { mkInitResult row with input_path := path } with h | h
                  · rw [h]
                    exact Or.inl rfl
                  · rw [h]
                    right
                    rfl
                · rcases splitStage_output_part1_cases cfg env len
                    (sanitize (baseNameOf row idx) 200)
                    ((ts0.sub cfg.startAdjust).max0) (te0.add cfg.endAdjust)
                    (parse_time row.rawSplit)
                    (fullStage cfg env len (sanitize (baseNameOf row idx) 200)
                      ((ts0.sub cfg.startAdjust).max0) (te0.add cfg.endAdjust)
                      { mkInitResult row with input_path := path }) with h | h
                  · rw [h]
                    rcases fullStage_cases cfg env len (sanitize (baseNameOf row idx) 200)
                      ((ts0.sub cfg.startAdjust).max0) (te0.add cfg.endAdjust)
                      { mkInitResult row with input_path := path } with h2 | h2
                    · rw [h2]
                      exact Or.inl rfl
                    · rw [h2]
                      exact Or.inl rfl
                  · exact Or.inr h
                · rcases splitStage_output_part2_cases cfg env len
                    (sanitize (baseNameOf row idx) 200)
                    ((ts0.sub cfg.startAdjust).max0) (te0.add cfg.endAdjust)
                    (parse_time row.rawSplit)
                    (fullStage cfg env len (sanitize (baseNameOf row idx) 200)
                      ((ts0.sub cfg.startAdjust).max0) (te0.add cfg.endAdjust)
                      { mkInitResult row with input_path := path }) with h | h
                  · rw [h]
                    rcases fullStage_cases cfg env len (sanitize (baseNameOf row idx) 200)
                      ((ts0.sub cfg.startAdjust).max0) (te0.add cfg.endAdjust)
                      { mkInitResult row with input_path := path } with h2 | h2
                    · rw [h2]
                      exact Or.inl rfl
                    · rw [h2]
                      exact Or.inl rfl
                  · exact Or.inr h

/-- C10 (counterexample): the claim's base-name rule — id if present, else
name, else `track_<idx>` — is false on the code: `Series.get` falls back
only when the column is absent, so a row whose id cell is present but blank
(NaN) and whose name is `"hello"` exports `out/nan-整段副歌.wav`; no suffix
completes the claim's `out/hello-…` shape into that path. -/
theorem C10_counterexample :
    (process_single_row fixtureCfg (build_audio_map ["d/hello.wav"]) quietEnv
        rowNanId 0).output_full = "out/nan-整段副歌.wav" ∧
    rowNanId.accId.notna? = none ∧
    rowNanId.songName = Cell.val "hello" ∧
    ¬ ∃ rest, (process_single_row fixtureCfg (build_audio_map ["d/hello.wav"]) quietEnv
        rowNanId 0).output_full
      = fixtureCfg.outputDir ++ "/" ++ (sanitize "hello" 200 ++ fullSuffix) ++ rest := by
  refine ⟨by decide, rfl, rfl, ?_⟩
  rintro ⟨rest, hr⟩
  rw [(by decide : (process_single_row fixtureCfg (build_audio_map ["d/hello.wav"])
      quietEnv rowNanId 0).output_full = "out/nan-整段副歌.wav"),
    (by decide : fixtureCfg.outputDir ++ "/" ++ (sanitize "hello" 200 ++ fullSuffix)
      = "out/hello-整段副歌")] at hr
  have hd := congrArg String.data hr
  rw [str_data_append] at hd
  have hstart : startsWithL ("out/nan-整段副歌.wav" : String).data
      ("out/hello-整段副歌" : String).data = true := by
    unfold startsWithL
    rw [hd, List.take_left]
    exact beq_self_eq_true _
  exact absurd hstart (by decide)

/-- C10 (amended): the output base name is
`str(row.get(id, row.get(name, track_<idx>)))` — the id cell's text when the
id column exists (which is `"nan"` for a present-but-blank cell), else the
name cell's text when that column exists (likewise `"nan"` if blank), else
the generated `track_<idx>` fallback — and this base is sanitised before any
output path is formed: dangerous characters are replaced by `_`, surrounding
whitespace is stripped, the result is truncated to at most 200 characters
(so no dangerous character survives and the length bound holds), and every
produced output path of the full, part1 and part2 segments embeds exactly
this sanitised base. -/
theorem C10_sanitized_names (cfg : Config) (m : AudioMap) (env : Env) (row : Row)
    (idx : ℕ) :
    (∀ s, row.accId = Cell.val s → baseNameOf row idx = s) ∧
    (row.accId = Cell.nan → baseNameOf row idx = "nan") ∧
    (∀ s, row.accId = Cell.absent → row.songName = Cell.val s →
      baseNameOf row idx = s) ∧
    (row.accId = Cell.absent → row.songName = Cell.nan →
      baseNameOf row idx = "nan") ∧
    (row.accId = Cell.absent → row.songName = Cell.absent →
      baseNameOf row idx = "track_" ++ toString idx) ∧
    ((sanitize (baseNameOf row idx) 200).data.length ≤ 200) ∧
    (∀ c ∈ (sanitize (baseNameOf row idx) 200).data, dangerousChar c = false) ∧
    ((process_single_row cfg m env row idx).output_full ≠ "" →
      ∃ rest, (process_single_row cfg m env row idx).output_full
        = cfg.outputDir ++ "/" ++ (sanitize (baseNameOf row idx) 200 ++ fullSuffix)
            ++ rest) ∧
    ((process_single_row cfg m env row idx).output_part1 ≠ "" →
      ∃ rest, (process_single_row cfg m env row idx).output_part1
        = cfg.outputDir ++ "/" ++ (sanitize (baseNameOf row idx) 200 ++ part1Suffix)
            ++ rest) ∧
    ((process_single_row cfg m env row idx).output_part2 ≠ "" →
      ∃ rest, (process_single_row cfg m env row idx).output_part2
        = cfg.outputDir ++ "/" ++ (sanitize (baseNameOf row idx) 200 ++ part2Suffix)
            ++ rest) := by
  have hchars : ∀ c ∈ (sanitize (baseNameOf row idx) 200).data, dangerousChar c = false := by
    intro c hc
    have hmem : c ∈ stripL ((baseNameOf row idx).data.map
        (fun c => if dangerousChar c then '_' else c)) := by
      unfold sanitize at hc
      dsimp only at hc
      split at hc
      · exact List.take_subset _ _ hc
      · exact hc
    rcases List.mem_map.mp (mem_stripL c _ hmem) with ⟨a, _, ha⟩
    by_cases hd : dangerousChar a = true
    · rw [hd] at ha
      simp only [if_true] at ha
      rw [← ha]
      decide
    · rw [Bool.not_eq_true] at hd
      rw [hd] at ha
      simp only [Bool.false_eq_true, if_false] at ha
      rw [← ha]
      exact hd
  refine ⟨?_, ?_, ?_, ?_, ?_, ?_, hchars, ?_, ?_, ?_⟩
  · intro s h
    unfold baseNameOf
    rw [h]
  · intro h
    unfold baseNameOf
    rw [h]
  · intro s h1 h2
    unfold baseNameOf
    rw [h1, h2]
  · intro h1 h2
    unfold baseNameOf
    rw [h1, h2]
  · intro h1 h2
    unfold baseNameOf
    rw [h1, h2]
  · unfold sanitize
    dsimp only
    split
    · simp [List.length_take]
    · rename_i hlen
      push_neg at hlen
      exact hlen
  · intro hne
    rcases (psr_outputs_cases cfg m env row idx).1 with h | h
    · exact absurd h hne
    · rw [h]
      exact outPathFor_shape cfg env _
  · intro hne
    rcases (psr_outputs_cases cfg m env row idx).2.1 with h | h
    · exact absurd h hne
    · rw [h]
      exact outPathFor_shape cfg env _
  · intro hne
    rcases (psr_outputs_cases cfg m env row idx).2.2 with h | h
    · exact absurd h hne
    · rw [h]
      exact outPathFor_shape cfg env _

/-- C10 (witness for the amended theorem): the blank-id row's base name is
`"nan"`, and a concrete run in which the full output exists carries the
sanitised base name. -/
theorem C10_sanitized_names_witness :
    baseNameOf rowNanId 0 = "nan" ∧
    ∃ rest, (process_single_row fixtureCfg fixtureMap quietEnv rowSplit25 0).output_full
      = fixtureCfg.outputDir ++ "/"
          ++ (sanitize (baseNameOf rowSplit25 0) 200 ++ fullSuffix) ++ rest :=
  ⟨(C10_sanitized_names fixtureCfg fixtureMap quietEnv rowNanId 0).2.1 rfl,
    (C10_sanitized_names fixtureCfg fixtureMap quietEnv rowSplit25 0).2.2.2.2.2.2.2.1
      (by decide)⟩

theorem psr_status_no_stop (cfg : Config) (m : AudioMap) (env : Env) (row : Row)
    (idx : ℕ) (h1 : env.stopFull = false) (h2 : env.stopPart1 = false)
    (h3 : env.stopPart2 = false) :
    (process_single_row cfg m env row idx).status = .success ∨
    (process_single_row cfg m env row idx).status = .failed := by
  unfold process_single_row
  cases hf : env.fault with
  | some msg => exact Or.inr rfl
  | none =>
    cases hmt : match_audio_file row m cfg.matchStrategy with
    | none => exact Or.inr rfl
    | some path =>
      dsimp only
      cases hs : parse_time row.rawStart with
      | none => exact Or.inr rfl
      | some ts0 =>
        cases he : parse_time row.rawEnd with
        | none => exact Or.inr rfl
        | some te0 =>
          dsimp only
          split
          · exact Or.inr rfl
          · cases hl : env.audioLen with
            | none => exact Or.inr rfl
            | some len =>
              dsimp only
              rw [h1, Bool.and_false]
              rw [if_neg (by simp : ¬ (false = true))]
              refine (splitStage_spec _ _ _ _ _ _ _ _ h2 h3 ?_).1
              rcases fullStage_cases cfg env len (sanitize (baseNameOf row idx) 200)
                ((ts0.sub cfg.startAdjust).max0) (te0.add cfg.endAdjust)
                { mkInitResult row with input_path := path } with h | h
              · rw [h]
                rfl
              · rw [h]
                rfl

theorem runRows_before_stop (cfg : Config) (m : AudioMap) (envs : ℕ → Env) (k : ℕ)
    (henv : ∀ j, (envs j).stopFull = false ∧ (envs j).stopPart1 = false ∧
      (envs j).stopPart2 = false) :
    ∀ (rows : List Row) (idx : ℕ), idx + rows.length ≤ k →
      (runRows cfg m envs (fun j => decide (k ≤ j)) rows idx).results.length
          = rows.length ∧
      (runRows cfg m envs (fun j => decide (k ≤ j)) rows idx).cancelled = 0 ∧
      (runRows cfg m envs (fun j => decide (k ≤ j)) rows idx).success
          + (runRows cfg m envs (fun j => decide (k ≤ j)) rows idx).failed
          = rows.length := by
  intro rows
  induction rows with
  | nil => exact fun idx _ => ⟨rfl, rfl, rfl⟩
  | cons r rest ih =>
    intro idx hk
    have hstop : decide (k ≤ idx) = false := by
      simp only [decide_eq_false_iff_not]
      simp only [List.length_cons] at hk
      omega
    obtain ⟨hL, hC, hSF⟩ := ih (idx + 1) (by simp only [List.length_cons] at hk; omega)
    have hst := psr_status_no_stop cfg m (envs idx) r idx (henv idx).1 (henv idx).2.1
      (henv idx).2.2
    unfold runRows
    dsimp only
    rw [hstop]
    rw [if_neg (by simp : ¬ (false = true))]
    dsimp only
    refine ⟨by simp [hL], hC, ?_⟩
    rcases hst with h | h <;> simp [h, hSF] <;> omega

theorem runRows_at_stop (cfg : Config) (m : AudioMap) (envs : ℕ → Env) (k : ℕ)
    (henv : ∀ j, (envs j).stopFull = false ∧ (envs j).stopPart1 = false ∧
      (envs j).stopPart2 = false) :
    ∀ (rows : List Row) (idx : ℕ), idx ≤ k → k < idx + rows.length →
      (runRows cfg m envs (fun j => decide (k ≤ j)) rows idx).results.length
          = k - idx ∧
      (runRows cfg m envs (fun j => decide (k ≤ j)) rows idx).cancelled = 1 ∧
      (runRows cfg m envs (fun j => decide (k ≤ j)) rows idx).success
          + (runRows cfg m envs (fun j => decide (k ≤ j)) rows idx).failed
          = k - idx := by
  intro rows
  induction rows with
  | nil =>
    intro idx h1 h2
    simp only [List.length_nil] at h2
    omega
  | cons r rest ih =>
    intro idx h1 h2
    by_cases hk : k ≤ idx
    · have hik : idx = k := le_antisymm h1 hk
      unfold runRows
      dsimp only
      rw [show decide (k ≤ idx) = true from by simp [hk]]
      rw [if_pos rfl]
      refine ⟨?_, rfl, ?_⟩ <;> simp [hik]
    · push_neg at hk
      obtain ⟨hL, hC, hSF⟩ := ih (idx + 1) (by omega)
        (by simp only [List.length_cons] at h2; omega)
      have hst := psr_status_no_stop cfg m (envs idx) r idx (henv idx).1 (henv idx).2.1
        (henv idx).2.2
      unfold runRows
      dsimp only
      rw [show decide (k ≤ idx) = false from by simp; omega]
      rw [if_neg (by simp : ¬ (false = true))]
      dsimp only
      refine ⟨by simp [hL]; omega, hC, ?_⟩
      rcases hst with h | h <;> simp [h, hSF] <;> omega

/-- C1 (counterexample): with three rows and cancellation observed right
after the first row completes, exactly one terminal result is emitted — but
`BatchStats.cancelled` is 1, not the unprocessed remainder 2, so
`success + failed + cancelled ≠ total`, contradicting the claimed
invariant. -/
theorem C1_counterexample :
    (process fixtureCfg [] [rowEmpty, rowEmpty, rowEmpty] (fun _ => quietEnv)
      (fun i => decide (1 ≤ i))).1.length = 1 ∧
    (process fixtureCfg [] [rowEmpty, rowEmpty, rowEmpty] (fun _ => quietEnv)
        (fun i => decide (1 ≤ i))).2.success
      + (process fixtureCfg [] [rowEmpty, rowEmpty, rowEmpty] (fun _ => quietEnv)
        (fun i => decide (1 ≤ i))).2.failed
      + (process fixtureCfg [] [rowEmpty, rowEmpty, rowEmpty] (fun _ => quietEnv)
        (fun i => decide (1 ≤ i))).2.cancelled
      ≠ (process fixtureCfg [] [rowEmpty, rowEmpty, rowEmpty] (fun _ => quietEnv)
        (fun i => decide (1 ≤ i))).2.total := by
  decide

/-- C1 (amended): without cancellation the loop emits one terminal result per
row and `success + failed + cancelled = total` holds with `cancelled = 0`;
when cancellation is observed at the loop top after k < total rows completed
(no mid-row stop), exactly k terminal results are emitted, `cancelled` is 1 —
not total − k — and `success + failed + cancelled = k + 1 ≤ total`. -/
theorem C1_cancellation_stats_amended (cfg : Config) (m : AudioMap)
    (envs : ℕ → Env) (rows : List Row) (k : ℕ)
    (henv : ∀ j, (envs j).stopFull = false ∧ (envs j).stopPart1 = false ∧
      (envs j).stopPart2 = false) :
    (rows.length ≤ k →
      (process cfg m rows envs (fun j => decide (k ≤ j))).1.length
          = (process cfg m rows envs (fun j => decide (k ≤ j))).2.total ∧
      (process cfg m rows envs (fun j => decide (k ≤ j))).2.cancelled = 0 ∧
      (process cfg m rows envs (fun j => decide (k ≤ j))).2.success
          + (process cfg m rows envs (fun j => decide (k ≤ j))).2.failed
          + (process cfg m rows envs (fun j => decide (k ≤ j))).2.cancelled
          = (process cfg m rows envs (fun j => decide (k ≤ j))).2.total) ∧
    (k < rows.length →
      (process cfg m rows envs (fun j => decide (k ≤ j))).1.length = k ∧
      (process cfg m rows envs (fun j => decide (k ≤ j))).2.cancelled = 1 ∧
      (process cfg m rows envs (fun j => decide (k ≤ j))).2.success
          + (process cfg m rows envs (fun j => decide (k ≤ j))).2.failed
          + (process cfg m rows envs (fun j => decide (k ≤ j))).2.cancelled
          = k + 1 ∧
      k + 1 ≤ (process cfg m rows envs (fun j => decide (k ≤ j))).2.total) := by
  constructor
  · intro hk
    obtain ⟨hL, hC, hSF⟩ := runRows_before_stop cfg m envs k henv rows 0 (by omega)
    refine ⟨?_, hC, ?_⟩ <;> simp [process, hL, hC, hSF]
  · intro hk
    obtain ⟨hL, hC, hSF⟩ := runRows_at_stop cfg m envs k henv rows 0 (by omega) (by omega)
    refine ⟨?_, hC, ?_, ?_⟩ <;> simp [process, hL, hC, hSF] <;> omega

/-- C1 (witness for the amended theorem): the same 3-row batch cancelled
after row 1 — one result, cancelled = 1, sum = 2. -/
theorem C1_cancellation_stats_amended_witness :
    (process fixtureCfg [] [rowEmpty, rowEmpty, rowEmpty] (fun _ => quietEnv)
      (fun j => decide (1 ≤ j))).1.length = 1 ∧
    (process fixtureCfg [] [rowEmpty, rowEmpty, rowEmpty] (fun _ => quietEnv)
      (fun j => decide (1 ≤ j))).2.cancelled = 1 ∧
    (process fixtureCfg [] [rowEmpty, rowEmpty, rowEmpty] (fun _ => quietEnv)
        (fun j => decide (1 ≤ j))).2.success
      + (process fixtureCfg [] [rowEmpty, rowEmpty, rowEmpty] (fun _ => quietEnv)
        (fun j => decide (1 ≤ j))).2.failed
      + (process fixtureCfg [] [rowEmpty, rowEmpty, rowEmpty] (fun _ => quietEnv)
        (fun j => decide (1 ≤ j))).2.cancelled
      = 1 + 1 := by
  have h := (C1_cancellation_stats_amended fixtureCfg [] (fun _ => quietEnv)
    [rowEmpty, rowEmpty, rowEmpty] 1 (fun j => ⟨rfl, rfl, rfl⟩)).2 (by decide)
  exact ⟨h.1, h.2.1, h.2.2.1⟩

/-- C9: an unexpected fault raised while processing one row is caught at row
scope and becomes that row's result — status Failed with the fault's message
as the error — and the batch is never aborted by any single row: with no
cancellation, the loop emits exactly one terminal result per row no matter
what each row's processing produced. -/
theorem C9_row_fault_isolation :
    (∀ (cfg : Config) (m : AudioMap) (env : Env) (row : Row) (idx : ℕ) (msg : String),
        env.fault = some msg →
        process_single_row cfg m env row idx = { mkInitResult row with error := msg }) ∧
    (∀ (cfg : Config) (m : AudioMap) (envs : ℕ → Env) (rows : List Row),
        (process cfg m rows envs (fun _ => false)).1.length = rows.length) := by
  constructor
  · intro cfg m env row idx msg h
    unfold process_single_row
    rw [h]
  · intro cfg m envs rows
    simpa [process] using runRows_len_no_stop cfg m envs rows 0

/-- C9 (witness): a concrete faulting row yields the Failed record carrying
the message, and a concrete 3-row batch with rows that all fail still emits 3
results. -/
theorem C9_row_fault_isolation_witness :
    process_single_row fixtureCfg fixtureMap
        { quietEnv with fault := some "boom" } rowEmpty 0
      = { mkInitResult rowEmpty with error := "boom" } ∧
    (process fixtureCfg fixtureMap [rowEmpty, rowEmpty, rowEmpty] (fun _ => quietEnv)
        (fun _ => false)).1.length = 3 :=
  ⟨C9_row_fault_isolation.1 _ _ _ _ 0 "boom" rfl,
    C9_row_fault_isolation.2 fixtureCfg fixtureMap (fun _ => quietEnv)
      [rowEmpty, rowEmpty, rowEmpty]⟩

end ChorusCutter
